import Mathlib

/-!
Shallow embedding of the edraw Inkscape extension (edraw.py) and proofs
about it.  Coordinates are modelled as exact rationals (Python floats are
a subset of the rationals); points in the plane are pairs, mirroring the
complex numbers the source uses.  Transcendental formatting (the
`atan`-in-degrees string of `area_fast_path`) is kept symbolic in a
constructor that records the exact value fed to `arctan`.
-/

namespace Edraw

/-- A point in the plane: the source stores points as Python complex
numbers (real part = x, imaginary part = y). -/
abbrev Pt := ℚ × ℚ

/-- Scalar multiplication of a point, mirroring `t * z` for a real
scalar `t` and a complex `z` in the source. -/
def scale (a : ℚ) (p : Pt) : Pt := (a * p.1, a * p.2)

/-- `cubic_bezier` from edraw.py: evaluate the cubic Bezier with control
points `b0 b1 b2 b3` at parameter `t` via the expanded polynomial
`(-b0+3*b1-3*b2+b3)*t^3 + (3*b0-6*b1+3*b2)*t^2 + (-3*b0+3*b1)*t + b0`. -/
def cubic_bezier (b0 b1 b2 b3 : Pt) (t : ℚ) : Pt :=
  scale (t ^ 3) (-b0 + scale 3 b1 - scale 3 b2 + b3) +
    scale (t ^ 2) (scale 3 b0 - scale 6 b1 + scale 3 b2) +
    scale t (-(scale 3 b0) + scale 3 b1) + b0

/-- `quadratic_bezier` from edraw.py: evaluate the quadratic Bezier with
control points `b0 b1 b2` at parameter `t` via
`(b0-2*b1+b2)*t^2 + (-2*b0+2*b1)*t + b0`. -/
def quadratic_bezier (b0 b1 b2 : Pt) (t : ℚ) : Pt :=
  scale (t ^ 2) (b0 - scale 2 b1 + b2) +
    scale t (-(scale 2 b0) + scale 2 b1) + b0

/-- `np.linspace(a, b, num, endpoint=True)` over exact arithmetic:
`num` evenly spaced samples from `a` to `b`, the last one being exactly
`b` (numpy sets the final sample to `stop` when `endpoint=True`). -/
def linspace (a b : ℚ) (num : ℕ) : List ℚ :=
  if num = 0 then []
  else if num = 1 then [a]
  else (List.range num).map fun (i : ℕ) =>
    if i = num - 1 then b else a + (i : ℚ) * ((b - a) / ((num : ℚ) - 1))

/-- The curve argument of `interpolate_curved_path`: the source passes
`['C', [b0, b1, b2, b3]]` or `['Q', [b0, b1, b2]]`. -/
inductive Curve
  | C (b0 b1 b2 b3 : Pt)
  | Q (b0 b1 b2 : Pt)
deriving DecidableEq

/-- Dispatch on the curve tag exactly as `interpolate_curved_path` picks
`func` from `path[0]`. -/
def curveEval (c : Curve) (t : ℚ) : Pt :=
  match c with
  | .C b0 b1 b2 b3 => cubic_bezier b0 b1 b2 b3 t
  | .Q b0 b1 b2 => quadratic_bezier b0 b1 b2 t

/-- `interpolate_curved_path` from edraw.py: sample the curve at
`np.linspace(1/n, 1, n, endpoint=True)` and collect the points. -/
def interpolate_curved_path (c : Curve) (n : ℕ) : List Pt :=
  (linspace (1 / (n : ℚ)) 1 n).map (curveEval c)

/-- The intended sample grid `1/n, 2/n, ..., n/n`. -/
def sampleGrid (n : ℕ) : List ℚ :=
  (List.range n).map fun (k : ℕ) => ((k : ℚ) + 1) / (n : ℚ)

lemma linspace_length (a b : ℚ) (num : ℕ) : (linspace a b num).length = num := by
  unfold linspace
  split
  · simp [*]
  · split
    · simp [*]
    · simp

lemma sampleGrid_length (n : ℕ) : (sampleGrid n).length = n := by
  simp [sampleGrid]

/-- Over exact arithmetic the numpy grid `linspace(1/n, 1, n)` is exactly
`1/n, 2/n, ..., n/n`. -/
lemma linspace_eq_sampleGrid (n : ℕ) (h : 1 ≤ n) :
    linspace (1 / (n : ℚ)) 1 n = sampleGrid n := by
  rcases Nat.eq_or_lt_of_le h with h1 | h2
  · subst h1
    simp only [linspace, sampleGrid]
    norm_num [List.range_succ]
  · have hn0 : (n : ℚ) ≠ 0 := by positivity
    have hn1 : ((n : ℚ) - 1) ≠ 0 := by
      have : (1 : ℚ) < (n : ℚ) := by exact_mod_cast h2
      intro hc
      nlinarith
    unfold linspace sampleGrid
    have hne0 : n ≠ 0 := by omega
    have hne1 : n ≠ 1 := by omega
    simp only [hne0, hne1, if_false]
    apply List.map_congr_left
    intro i hi
    have hiklt : i < n := List.mem_range.mp hi
    have hstep : ((1 : ℚ) - 1 / (n : ℚ)) / ((n : ℚ) - 1) = 1 / (n : ℚ) := by
      field_simp
      ring
    by_cases hlast : i = n - 1
    · subst hlast
      have hcast : ((n - 1 : ℕ) : ℚ) = (n : ℚ) - 1 := by
        have : (1 : ℕ) ≤ n := h
        push_cast [this]
        ring
      rw [if_pos rfl, hcast]
      field_simp
    · rw [if_neg hlast, hstep]
      field_simp
      ring

/-- One entry of `svg_path.path.to_arrays()`: a command letter together
with its parameter array, in the positions the source indexes.  `other`
stands for any command letter the interpreter's `else: pass` ignores. -/
inductive Seg
  | M (x y : ℚ)
  | L (x y : ℚ)
  | H (x : ℚ)
  | V (y : ℚ)
  | C (x1 y1 x2 y2 x y : ℚ)
  | S (x2 y2 x y : ℚ)
  | Q (x1 y1 x y : ℚ)
  | T (x y : ℚ)
  | A (rx ry rot laf sf x y : ℚ)
  | Z
  | other
deriving DecidableEq

/-- The interpreter state of the per-path loop in `effect`: current point
`PP`, last control point `CC`, the vertices written to `points2` so far,
and the `closed` variable.  `closed` is an `Option Bool` because the
source never initialises it inside the loop: `none` models the name
being undefined (reading it raises NameError), and the loop only ever
assigns `True` to it. -/
structure PathState where
  PP : Pt
  CC : Pt
  points : List Pt
  closed : Option Bool
deriving DecidableEq

/-- One iteration of the `for i in range(len(segs))` loop in `effect`,
for the given number `n` of interpolation points (`num_int_points`). -/
def stepSeg (n : ℕ) (st : PathState) (s : Seg) : PathState :=
  match s with
  | .M x y => { st with PP := (x, y), points := st.points ++ [(x, y)] }
  | .L x y => { st with PP := (x, y), points := st.points ++ [(x, y)] }
  | .H x =>
      let p : Pt := (x, st.PP.2)
      { st with PP := p, points := st.points ++ [p] }
  | .V y =>
      let p : Pt := (st.PP.1, y)
      { st with PP := p, points := st.points ++ [p] }
  | .C x1 y1 x2 y2 x y =>
      let segS := st.PP
      let segC1 : Pt := (x1, y1)
      let cc : Pt := (x2, y2)
      let segE : Pt := (x, y)
      let ipoints := interpolate_curved_path (.C segS segC1 cc segE) n
      { st with CC := cc, PP := segE, points := st.points ++ ipoints }
  | .S x2 y2 x y =>
      let segS := st.PP
      let segC1 : Pt := scale 2 st.PP - st.CC
      let cc : Pt := (x2, y2)
      let segE : Pt := (x, y)
      let ipoints := interpolate_curved_path (.C segS segC1 cc segE) n
      { st with CC := cc, PP := segE, points := st.points ++ ipoints }
  | .Q x1 y1 x y =>
      let segS := st.PP
      let cc : Pt := (x1, y1)
      let segE : Pt := (x, y)
      let ipoints := interpolate_curved_path (.Q segS cc segE) n
      { st with CC := cc, PP := segE, points := st.points ++ ipoints }
  | .T x y =>
      let segS := st.PP
      let cc : Pt := scale 2 st.PP - st.CC
      let segE : Pt := (x, y)
      let ipoints := interpolate_curved_path (.Q segS cc segE) n
      { st with CC := cc, PP := segE, points := st.points ++ ipoints }
  | .A _ _ _ _ _ x y => { st with PP := (x, y), points := st.points ++ [(x, y)] }
  | .Z => { st with closed := some true }
  | .other => st

/-- The whole per-path command loop: fold `stepSeg` over the commands. -/
def interpretPath (n : ℕ) (st : PathState) (segs : List Seg) : PathState :=
  segs.foldl (stepSeg n) st

/-- Run the per-path loop from the state the source sets up before it
(`PP = 0j`, `CC = 0j`, empty `points2`); `closed0` is whatever value the
`closed` variable has when the path is reached — the source does NOT
reset it, so it is carried over from earlier paths (`none` at the start
of `effect`, when it is still undefined). -/
def runPath (n : ℕ) (closed0 : Option Bool) (segs : List Seg) : PathState :=
  interpretPath n { PP := (0, 0), CC := (0, 0), points := [], closed := closed0 } segs

/-- Commands that emit exactly one vertex. -/
def emitsOne (s : Seg) : Bool :=
  match s with
  | .M _ _ | .L _ _ | .H _ | .V _ | .A _ _ _ _ _ _ _ => true
  | _ => false

/-- Commands that are flattened through `interpolate_curved_path`. -/
def isCurved (s : Seg) : Bool :=
  match s with
  | .C _ _ _ _ _ _ | .S _ _ _ _ | .Q _ _ _ _ | .T _ _ => true
  | _ => false

/-- Helper for the lazy group of the regex `fill:(.+?);`: given the
characters after the first group character, return the characters up to
(excluding) the FIRST `;`, failing if a newline (which `.` cannot match)
comes first or no `;` follows. -/
def lazyTail (l : List Char) : Option (List Char) :=
  match l with
  | [] => none
  | c :: rest =>
      if c = ';' then some []
      else if c = '\n' then none
      else (lazyTail rest).map fun u => c :: u

/-- The group matched by `(.+?);` at a fixed position: at least one
character (none of them a newline), up to the first `;` that is at
distance at least two from the start. -/
def lazyGroup (l : List Char) : Option (List Char) :=
  match l with
  | [] => none
  | c :: rest =>
      if c = '\n' then none
      else (lazyTail rest).map fun u => c :: u

/-- `re.search('fill:(.+?);', s).group(1)`: scan left to right for the
first position where `fill:` is followed by a lazy group, and return
that group; `none` when the pattern matches nowhere (in Python,
`re.search` returns `None` and `.group(1)` then raises). -/
def fillSearch (l : List Char) : Option (List Char) :=
  match l with
  | [] => none
  | _ :: rest =>
      if l.take 5 = [ 'f', 'i', 'l', 'l', ':' ] then
        match lazyGroup (l.drop 5) with
        | some u => some u
        | none => fillSearch rest
      else fillSearch rest

/-- The style string built in `gen_style`'s filled branch:
`fill:{layer_color};stroke:none;opacity:{layer_alpha}` (the layer alpha
is passed already formatted as text). -/
def filledStyle (color alpha : List Char) : List Char :=
  ("fill:".toList ++ color) ++ (";stroke:none;opacity:".toList ++ alpha)

/-- The style string built in `gen_style`'s outline branch and, with the
same text, directly in the open-path (`LINES`) branch of `effect`:
`fill:none;stroke:{layer_color};stroke-width:1;opacity:{layer_alpha}`. -/
def strokeStyle (color alpha : List Char) : List Char :=
  ("fill:none;stroke:".toList ++ color) ++ (";stroke-width:1;opacity:".toList ++ alpha)

/-- `gen_style` from edraw.py: extract the `fill` value with the regex
`fill:(.+?);` (error when it does not match — the spec's ParseError) and
build the new style and the outline flag (`outl` is the string
`'false'`/`'true'` in the source, modelled as a `Bool`). -/
def gen_style (old_sty color alpha : List Char) : Except Unit (List Char × Bool) :=
  match fillSearch old_sty with
  | none => .error ()
  | some v =>
      if v ≠ "none".toList then .ok (filledStyle color alpha, false)
      else .ok (strokeStyle color alpha, true)

/-- Errors a single path iteration of `effect` can raise: reading the
undefined `closed` name (NameError), or `gen_style`'s failed regex match
(the spec's ParseError). -/
inductive PErr
  | nameError
  | parseError
deriving DecidableEq

/-- The XML element emitted for one path: a `POLYGON` (with its
`outline` attribute) when `closed` is truthy, otherwise a `LINES`
element; both carry the flattened vertices (`points2`). -/
inductive PathElem
  | POLYGON (outl : Bool) (pts : List Pt)
  | LINES (pts : List Pt)
deriving DecidableEq

/-- One full path iteration of `effect`: run the command loop from the
carried-over `closed0`, then branch on `closed` — `none` means the name
is undefined and the `if closed:` line raises NameError; `some true`
emits a POLYGON and calls `gen_style` on the shape's own style (which
can fail); `some false` emits a LINES element and builds the new style
directly, never touching the shape's style.  Returns the element, the
new style that would be applied with `--apply_on_svg`, and the value of
`closed` after the iteration. -/
def processPath (n : ℕ) (closed0 : Option Bool) (segs : List Seg)
    (sty color alpha : List Char) :
    Except PErr (PathElem × List Char × Option Bool) :=
  match (runPath n closed0 segs).closed with
  | none => .error .nameError
  | some c =>
      if c then
        match gen_style sty color alpha with
        | .error _ => .error .parseError
        | .ok (nsty, o) =>
            .ok (.POLYGON o (runPath n closed0 segs).points, nsty, some c)
      else
        .ok (.LINES (runPath n closed0 segs).points,
          strokeStyle color alpha, some c)

/-- The value returned by `area_fast_path`, kept symbolic where the
source formats a float: `zero` is the string `'0 deg'`, `ninety` is
`'90 deg'`, and `arctanDeg t` stands for
`'{:.0f} deg'.format(np.rad2deg(np.arctan(t)))` with the exact slope
`t = tan` recorded. -/
inductive AreaDir
  | zero
  | ninety
  | arctanDeg (tan : ℚ)
deriving DecidableEq

/-- `area_fast_path` from edraw.py, paired with whether the non-fatal
`inkex.errormsg` warning was emitted.  The source tests
`len(points) < 4` and otherwise reads only `points[0..3]`. -/
def area_fast_path (points : List ℚ) : Bool × AreaDir :=
  match points with
  | x1 :: y1 :: x2 :: y2 :: _ =>
      if x2 - x1 ≠ 0 then (false, .arctanDeg ((y2 - y1) / (x2 - x1)))
      else (false, .ninety)
  | _ => (true, .zero)

/-- `area_fast_rect` from edraw.py: `'0 deg'` when the width is at least
the height, else `'90 deg'`. -/
def area_fast_rect (x y : ℚ) : AreaDir :=
  if y ≤ x then .zero else .ninety

/-- `'{:02x}'.format(n)` for a natural number: lowercase hex digits,
left-padded with `0` to at least two characters. -/
def format02x (n : ℕ) : List Char :=
  let ds := Nat.toDigits 16 n
  if ds.length ≤ 1 then '0' :: ds else ds

/-- Numeric value of one hex digit as `int(_, 16)` reads it (both
cases). -/
def hexVal (c : Char) : ℕ :=
  if '0' ≤ c ∧ c ≤ '9' then c.toNat - '0'.toNat
  else if 'a' ≤ c ∧ c ≤ 'f' then c.toNat - 'a'.toNat + 10
  else if 'A' ≤ c ∧ c ≤ 'F' then c.toNat - 'A'.toNat + 10
  else 0

/-- `int(s, 16)` on a list of hex digits. -/
def parseHex (l : List Char) : ℕ :=
  l.foldl (fun acc c => 16 * acc + hexVal c) 0

/-- Python's `s[-2:]`: the last two characters. -/
def lastTwo (l : List Char) : List Char :=
  l.drop (l.length - 2)

/-- `rgba_conv` from edraw.py: `'#'` followed by the `02x` renderings of
`r`, `g`, `b`; when no alpha component is supplied the literal `'FF'` is
appended, otherwise the `02x` rendering of `int(alpha * 100)` (Python's
`int` truncates toward zero; for `alpha ≥ 0` that is the floor). -/
def rgba_conv (r g b : ℕ) (a : Option ℚ) : List Char :=
  '#' :: (format02x r ++ format02x g ++ format02x b ++
    match a with
    | none => [ 'F', 'F' ]
    | some av => format02x (Int.toNat ⌊av * 100⌋))

/-- The alpha computed by `get_layer_attribs` from a `#RRGGBBAA` color
string: `int(color[-2:], 16) / 255`. -/
def layerAlpha (color : List Char) : ℚ :=
  (parseHex (lastTwo color) : ℚ) / 255

/-- The color picked for the layer at index `i` in `effect`:
`color_cycle[i % len(color_cycle)]`. -/
def layerColor (cycle : List (List Char)) (i : ℕ) : List Char :=
  cycle.getD (i % cycle.length) []

lemma interpolate_length (c : Curve) (n : ℕ) :
    (interpolate_curved_path c n).length = n := by
  unfold interpolate_curved_path
  rw [List.length_map, linspace_length]

lemma sampleGrid_pairwise (n : ℕ) : List.Pairwise (· < ·) (sampleGrid n) := by
  unfold sampleGrid
  rcases Nat.eq_zero_or_pos n with h0 | hpos
  · subst h0; simp
  · have hn : (0 : ℚ) < (n : ℚ) := by exact_mod_cast hpos
    refine List.Pairwise.map _ ?_ (List.pairwise_lt_range n)
    intro a b hab
    have hab' : ((a : ℚ) + 1) < ((b : ℚ) + 1) := by
      have : (a : ℚ) < (b : ℚ) := by exact_mod_cast hab
      linarith
    gcongr

lemma sampleGrid_pos (n : ℕ) : ∀ t ∈ sampleGrid n, 0 < t := by
  intro t ht
  unfold sampleGrid at ht
  rcases List.mem_map.mp ht with ⟨k, hk, rfl⟩
  have hpos : 0 < n := by
    rcases Nat.eq_zero_or_pos n with h0 | h; · subst h0; simp at hk
    exact h
  have hn : (0 : ℚ) < (n : ℚ) := by exact_mod_cast hpos
  positivity

/-- Claim C3: for every `n ≥ 1`, `interpolate_curved_path` evaluates the
given cubic or quadratic Bezier at exactly the `n` parameters
`1/n, 2/n, ..., n/n`, in strictly increasing order of `t`, with `t = 0`
excluded, and returns exactly `n` points in that order. -/
theorem c3_sampling_grid (c : Curve) (n : ℕ) (h : 1 ≤ n) :
    interpolate_curved_path c n = (sampleGrid n).map (curveEval c)
    ∧ (interpolate_curved_path c n).length = n
    ∧ List.Pairwise (· < ·) (sampleGrid n)
    ∧ (0 : ℚ) ∉ sampleGrid n := by
  refine ⟨?_, interpolate_length c n, sampleGrid_pairwise n, ?_⟩
  · unfold interpolate_curved_path
    rw [linspace_eq_sampleGrid n h]
  · intro hmem
    have := sampleGrid_pos n 0 hmem
    exact lt_irrefl 0 this

/-- Claim C3 witness at `n = 2` on a concrete quadratic curve. -/
theorem c3_sampling_grid_witness :
    interpolate_curved_path (Curve.Q (0, 0) (1, 0) (1, 1)) 2 =
      (sampleGrid 2).map (curveEval (Curve.Q (0, 0) (1, 0) (1, 1)))
    ∧ (interpolate_curved_path (Curve.Q (0, 0) (1, 0) (1, 1)) 2).length = 2
    ∧ List.Pairwise (· < ·) (sampleGrid 2)
    ∧ (0 : ℚ) ∉ sampleGrid 2 :=
  c3_sampling_grid (Curve.Q (0, 0) (1, 0) (1, 1)) 2 (by norm_num)

/-- Claim C4: evaluating the expanded cubic Bezier polynomial at `t = 1`
yields the last control point `b3`, and evaluating the quadratic one at
`t = 1` yields `b2`, componentwise over exact arithmetic. -/
theorem c4_bezier_endpoint (b0 b1 b2 b3 : Pt) :
    cubic_bezier b0 b1 b2 b3 1 = b3 ∧ quadratic_bezier b0 b1 b2 1 = b2 := by
  obtain ⟨x0, y0⟩ := b0
  obtain ⟨x1, y1⟩ := b1
  obtain ⟨x2, y2⟩ := b2
  obtain ⟨x3, y3⟩ := b3
  constructor
  · simp only [cubic_bezier, scale, Prod.ext_iff, Prod.fst_add, Prod.snd_add,
      Prod.fst_sub, Prod.snd_sub, Prod.fst_neg, Prod.snd_neg]
    constructor <;> ring
  · simp only [quadratic_bezier, scale, Prod.ext_iff, Prod.fst_add, Prod.snd_add,
      Prod.fst_sub, Prod.snd_sub, Prod.fst_neg, Prod.snd_neg]
    constructor <;> ring

/-- Claim C9: the layer at 0-based index `i` receives color
`cycle[i mod L]`, so indices `i` and `i + L` receive the same color. -/
theorem c9_color_cycle (cycle : List (List Char)) (i : ℕ) (h : cycle ≠ []) :
    (∃ hlt : i % cycle.length < cycle.length,
        layerColor cycle i = cycle.get ⟨i % cycle.length, hlt⟩)
    ∧ layerColor cycle (i + cycle.length) = layerColor cycle i := by
  have hpos : 0 < cycle.length := List.length_pos.mpr h
  have hlt : i % cycle.length < cycle.length := Nat.mod_lt i hpos
  refine ⟨⟨hlt, ?_⟩, ?_⟩
  · exact List.getD_eq_get cycle [] hlt
  · unfold layerColor
    rw [Nat.add_mod_right]

/-- Claim C9 witness on a two-color cycle at index 3. -/
theorem c9_color_cycle_witness :
    (∃ hlt : 3 % ([ "#a".toList, "#b".toList ] : List (List Char)).length <
        ([ "#a".toList, "#b".toList ] : List (List Char)).length,
        layerColor [ "#a".toList, "#b".toList ] 3 =
          ([ "#a".toList, "#b".toList ] : List (List Char)).get
            ⟨3 % ([ "#a".toList, "#b".toList ] : List (List Char)).length, hlt⟩)
    ∧ layerColor [ "#a".toList, "#b".toList ]
        (3 + ([ "#a".toList, "#b".toList ] : List (List Char)).length) =
      layerColor [ "#a".toList, "#b".toList ] 3 :=
  c9_color_cycle [ "#a".toList, "#b".toList ] 3 (by decide)

/-- Claim C6: when the regex extracts fill value `v`, `gen_style`
returns the filled style with `outl = false` if `v ≠ "none"`, and the
outline style with `outl = true` if `v = "none"`. -/
theorem c6_gen_style_branches (s v color alpha : List Char)
    (h : fillSearch s = some v) :
    gen_style s color alpha =
      (if v ≠ "none".toList then Except.ok (filledStyle color alpha, false)
       else Except.ok (strokeStyle color alpha, true)) := by
  unfold gen_style
  rw [h]

/-- Claim C6 witness: a filled style and an outline style evaluated on
concrete inputs. -/
theorem c6_gen_style_branches_witness :
    gen_style ( "fill:red;".toList ) ( "#1F77B4".toList ) ( "0.5".toList ) =
      (if "red".toList ≠ "none".toList
       then Except.ok (filledStyle ( "#1F77B4".toList ) ( "0.5".toList ), false)
       else Except.ok (strokeStyle ( "#1F77B4".toList ) ( "0.5".toList ), true)) :=
  c6_gen_style_branches ( "fill:red;".toList ) ( "red".toList )
    ( "#1F77B4".toList ) ( "0.5".toList ) (by decide)

/-- Claim C7: when the `fill:(.+?);` pattern matches nowhere in the
style, `gen_style` fails (the spec's ParseError) and the error is
returned to the caller; when it matches, no error is raised. -/
theorem c7_parse_error (s color alpha : List Char) :
    (fillSearch s = none → gen_style s color alpha = Except.error ())
    ∧ (∀ v, fillSearch s = some v → ∃ r, gen_style s color alpha = Except.ok r) := by
  constructor
  · intro h
    unfold gen_style
    rw [h]
  · intro v h
    by_cases hv : v = "none".toList
    · exact ⟨(strokeStyle color alpha, true),
        by unfold gen_style; rw [h]; exact if_neg (by simp [hv])⟩
    · exact ⟨(filledStyle color alpha, false),
        by unfold gen_style; rw [h]; exact if_pos hv⟩

/-- Claim C7 witness: a style with no fill property fails. -/
theorem c7_parse_error_witness :
    gen_style ( "stroke:red;".toList ) ( "#1F77B4".toList ) ( "0.5".toList ) =
      Except.error () :=
  (c7_parse_error ( "stroke:red;".toList ) ( "#1F77B4".toList )
    ( "0.5".toList )).1 (by decide)

/-- Claim C5 counterexample: the input `[0, 0, 0, 0]` encodes the point
`(0, 0)` twice — fewer than 2 distinct points — yet `area_fast_path`
returns `'90 deg'` with no warning, not the claimed warning plus
`'0 deg'`.  The code only checks `len(points) < 4`, never
distinctness. -/
theorem c5_counterexample :
    area_fast_path [0, 0, 0, 0] = (false, AreaDir.ninety)
    ∧ area_fast_path [0, 0, 0, 0] ≠ (true, AreaDir.zero)
    ∧ ([ ((0 : ℚ), (0 : ℚ)), ((0 : ℚ), (0 : ℚ)) ] : List Pt).dedup.length < 2 := by
  have h1 : area_fast_path [0, 0, 0, 0] = (false, AreaDir.ninety) := by
    simp [area_fast_path]
  refine ⟨h1, ?_, by simp⟩
  rw [h1]
  simp

/-- Claim C5 (amended): `area_fast_path` requires at least 4 numeric
coordinates (2 points, not necessarily distinct): with fewer it warns
and returns `'0 deg'`; with at least 4 it uses only the first two
vertices, returning `'90 deg'` when `x2 - x1 = 0` and otherwise the
rounded `atan((y2-y1)/(x2-x1))` in degrees. -/
theorem c5_area_fast_path_amended (points : List ℚ) :
    (points.length < 4 → area_fast_path points = (true, AreaDir.zero))
    ∧ (∀ x1 y1 x2 y2 rest, points = x1 :: y1 :: x2 :: y2 :: rest →
        area_fast_path points =
          if x2 - x1 = 0 then (false, AreaDir.ninety)
          else (false, AreaDir.arctanDeg ((y2 - y1) / (x2 - x1)))) := by
  constructor
  · intro hlen
    rcases points with _ | ⟨a, _ | ⟨b, _ | ⟨c, _ | ⟨d, rest⟩⟩⟩⟩
    · rfl
    · rfl
    · rfl
    · rfl
    · simp only [List.length_cons] at hlen
      omega
  · intro x1 y1 x2 y2 rest hp
    subst hp
    by_cases h0 : x2 - x1 = 0
    · simp [area_fast_path, h0]
    · simp [area_fast_path, h0]

/-- Claim C5 witness: the slope branch on a concrete input. -/
theorem c5_area_fast_path_witness :
    area_fast_path [0, 0, 1, 2] =
      if (1 : ℚ) - 0 = 0 then (false, AreaDir.ninety)
      else (false, AreaDir.arctanDeg (((2 : ℚ) - 0) / ((1 : ℚ) - 0))) :=
  (c5_area_fast_path_amended [0, 0, 1, 2]).2 0 0 1 2 [] rfl

lemma stepSeg_points_length (n : ℕ) (st : PathState) (s : Seg) :
    (stepSeg n st s).points.length =
      st.points.length + (if emitsOne s then 1 else 0)
        + (if isCurved s then n else 0) := by
  cases s <;> simp [stepSeg, emitsOne, isCurved, interpolate_length]

lemma interpretPath_points_length (n : ℕ) (segs : List Seg) :
    ∀ st : PathState, (interpretPath n st segs).points.length =
      st.points.length + segs.countP emitsOne + n * segs.countP isCurved := by
  induction segs with
  | nil => intro st; simp [interpretPath]
  | cons s rest ih =>
      intro st
      have hfold : interpretPath n st (s :: rest) =
          interpretPath n (stepSeg n st s) rest := rfl
      rw [hfold, ih (stepSeg n st s), stepSeg_points_length,
        List.countP_cons, List.countP_cons]
      by_cases he : emitsOne s <;> by_cases hc : isCurved s <;>
        simp [he, hc] <;> ring

/-- Claim C2: for every command sequence and every `n ≥ 1`, the number
of vertices emitted equals the number of MoveTo/LineTo/Horizontal/
Vertical/Arc commands plus `n` times the number of curve commands;
ClosePath and unrecognized commands contribute nothing (the fold also
fixes vertex order to command order, and `interpolate_curved_path`
excludes the curve's start point `t = 0`). -/
theorem c2_vertex_count (n : ℕ) (h : 1 ≤ n) (closed0 : Option Bool)
    (segs : List Seg) :
    (runPath n closed0 segs).points.length =
      segs.countP emitsOne + n * segs.countP isCurved := by
  unfold runPath
  rw [interpretPath_points_length]
  simp

/-- Claim C2 witness: a MoveTo, a cubic curve and a ClosePath at
`n = 2` give `1 + 2` vertices. -/
theorem c2_vertex_count_witness :
    (runPath 2 none
        [ Seg.M 0 0, Seg.C 0 1 1 1 1 0, Seg.Z ]).points.length =
      List.countP emitsOne [ Seg.M 0 0, Seg.C 0 1 1 1 1 0, Seg.Z ]
        + 2 * List.countP isCurved [ Seg.M 0 0, Seg.C 0 1 1 1 1 0, Seg.Z ] :=
  c2_vertex_count 2 (by norm_num) none [ Seg.M 0 0, Seg.C 0 1 1 1 1 0, Seg.Z ]

lemma stepSeg_closed (n : ℕ) (st : PathState) (s : Seg) :
    (stepSeg n st s).closed = if s = Seg.Z then some true else st.closed := by
  cases s <;> simp [stepSeg]

lemma interpretPath_closed_of_no_Z (n : ℕ) (segs : List Seg)
    (h : Seg.Z ∉ segs) :
    ∀ st : PathState, (interpretPath n st segs).closed = st.closed := by
  induction segs with
  | nil => intro st; rfl
  | cons s rest ih =>
      intro st
      have hs : s ≠ Seg.Z := fun hc => h (hc ▸ List.mem_cons_self s rest)
      have hrest : Seg.Z ∉ rest := fun hc => h (List.mem_cons_of_mem s hc)
      have hfold : interpretPath n st (s :: rest) =
          interpretPath n (stepSeg n st s) rest := rfl
      rw [hfold, ih hrest, stepSeg_closed, if_neg hs]

lemma interpretPath_closed_true (n : ℕ) (segs : List Seg) :
    ∀ st : PathState, st.closed = some true →
      (interpretPath n st segs).closed = some true := by
  induction segs with
  | nil => intro st hst; exact hst
  | cons s rest ih =>
      intro st hst
      have hfold : interpretPath n st (s :: rest) =
          interpretPath n (stepSeg n st s) rest := rfl
      rw [hfold]
      apply ih
      rw [stepSeg_closed]
      by_cases hs : s = Seg.Z <;> simp [hs, hst]

/-- Claim C1 (code bug): the `closed` variable is never initialised or
reset in the per-path loop of `effect`.  Concretely: a first path ending
in ClosePath leaves `closed = True`; a second path with no ClosePath
command then still reads `closed = True` and is emitted as a POLYGON;
and when the very first path has no ClosePath, `closed` is still
undefined and `if closed:` raises NameError.  This refutes the claimed
"closed iff the sequence contains a ClosePath, independently of earlier
paths"; the obvious intent (the spec's reading, and the only way the
LINES branch is reachable at all) is a `closed = False` reset per
path. -/
theorem c1_closed_flag_not_reset :
    (runPath 1 none [ Seg.M 0 0, Seg.L 1 0, Seg.Z ]).closed = some true
    ∧ (runPath 1 ((runPath 1 none [ Seg.M 0 0, Seg.L 1 0, Seg.Z ]).closed)
        [ Seg.M 0 0, Seg.L 1 1 ]).closed = some true
    ∧ List.countP (fun s => decide (s = Seg.Z)) [ Seg.M 0 0, Seg.L 1 1 ] = 0
    ∧ (runPath 1 none [ Seg.M 0 0, Seg.L 1 1 ]).closed = none
    ∧ processPath 1 ((runPath 1 none [ Seg.M 0 0, Seg.L 1 0, Seg.Z ]).closed)
        [ Seg.M 0 0, Seg.L 1 1 ] ( "fill:red;".toList ) [] [] =
      Except.ok (PathElem.POLYGON false [ (0, 0), (1, 1) ], filledStyle [] [], some true)
    ∧ processPath 1 none [ Seg.M 0 0, Seg.L 1 1 ] ( "fill:red;".toList ) [] [] =
      Except.error PErr.nameError := by
  refine ⟨?_, ?_, ?_, ?_, ?_, ?_⟩ <;> rfl

/-- Claim C10: a path emitted as open (`closed` false, no ClosePath in
its commands) gets the directly built stroke style without the shape's
own style ever being parsed, so a missing fill property cannot fail
there; the identical style on a closed path goes through `gen_style`
and fails. -/
theorem c10_open_path_no_style_parse (n : ℕ) (segs : List Seg)
    (sty color alpha : List Char)
    (hZ : Seg.Z ∉ segs) (hnofill : fillSearch sty = none) :
    processPath n (some false) segs sty color alpha =
      Except.ok (PathElem.LINES (runPath n (some false) segs).points,
        strokeStyle color alpha, some false)
    ∧ processPath n (some true) segs sty color alpha =
      Except.error PErr.parseError := by
  have hopen : (runPath n (some false) segs).closed = some false :=
    interpretPath_closed_of_no_Z n segs hZ _
  have hclosed : (runPath n (some true) segs).closed = some true :=
    interpretPath_closed_true n segs _ rfl
  have herr : gen_style sty color alpha = Except.error () := by
    unfold gen_style
    rw [hnofill]
  constructor
  · unfold processPath
    rw [hopen]
    rfl
  · unfold processPath
    rw [hclosed, herr]
    rfl

/-- Claim C10 witness: a concrete open path whose style has no fill
property converts without error, while the same style on a closed path
fails. -/
theorem c10_open_path_no_style_parse_witness :
    processPath 1 (some false) [ Seg.M 0 0, Seg.L 1 1 ]
        ( "stroke:red;".toList ) ( "#1F77B4".toList ) ( "0.5".toList ) =
      Except.ok (PathElem.LINES
          (runPath 1 (some false) [ Seg.M 0 0, Seg.L 1 1 ]).points,
        strokeStyle ( "#1F77B4".toList ) ( "0.5".toList ), some false)
    ∧ processPath 1 (some true) [ Seg.M 0 0, Seg.L 1 1 ]
        ( "stroke:red;".toList ) ( "#1F77B4".toList ) ( "0.5".toList ) =
      Except.error PErr.parseError :=
  c10_open_path_no_style_parse 1 [ Seg.M 0 0, Seg.L 1 1 ]
    ( "stroke:red;".toList ) ( "#1F77B4".toList ) ( "0.5".toList )
    (by decide) (by decide)

set_option maxRecDepth 10000 in
lemma parseHex_format02x : ∀ n < 256, parseHex (format02x n) = n := by decide

set_option maxRecDepth 10000 in
lemma format02x_length : ∀ n < 256, (format02x n).length = 2 := by decide

lemma lastTwo_append (pre post : List Char) (h : post.length = 2) :
    lastTwo (pre ++ post) = post := by
  unfold lastTwo
  rw [List.length_append, h]
  have h2 : pre.length + 2 - 2 = pre.length := by omega
  rw [h2, List.drop_left]

lemma layerAlpha_rgba_conv (r g b : ℕ) (hr : r < 256) (hg : g < 256)
    (hb : b < 256) (m : ℕ) (hm : m < 256) :
    layerAlpha ('#' :: (format02x r ++ format02x g ++ format02x b ++ format02x m)) =
      (m : ℚ) / 255 := by
  unfold layerAlpha
  have hsplit : '#' :: (format02x r ++ format02x g ++ format02x b ++ format02x m) =
      ('#' :: (format02x r ++ format02x g ++ format02x b)) ++ format02x m := by
    simp
  rw [hsplit, lastTwo_append _ _ (format02x_length m hm), parseHex_format02x m hm]

/-- Claim C8: the custom-mode encoder `rgba_conv` writes the alpha
component as the two-hex-digit value of `int(A*100)` (and appends `FF`
when only RGB is given), while `get_layer_attribs` decodes the final
byte dividing by 255; the round trip therefore yields
`int(A*100)/255`, not `A` — witnessed by `A = 1` mapping to
`100/255`. -/
theorem c8_alpha_encode_decode_mismatch (r g b : ℕ) (hr : r < 256)
    (hg : g < 256) (hb : b < 256) (A : ℚ) (h0 : 0 ≤ A) (h1 : A ≤ 1) :
    layerAlpha (rgba_conv r g b (some A)) = ((Int.toNat ⌊A * 100⌋ : ℕ) : ℚ) / 255
    ∧ layerAlpha (rgba_conv r g b none) = 1
    ∧ layerAlpha (rgba_conv 0 0 0 (some 1)) ≠ 1 := by
  have hfloor : ⌊A * 100⌋ ≤ 100 := by
    have : A * 100 ≤ 100 := by nlinarith
    calc ⌊A * 100⌋ ≤ ⌊(100 : ℚ)⌋ := Int.floor_le_floor this
    _ = 100 := by norm_num
  have hm : Int.toNat ⌊A * 100⌋ < 256 := by omega
  refine ⟨?_, ?_, ?_⟩
  · have := layerAlpha_rgba_conv r g b hr hg hb (Int.toNat ⌊A * 100⌋) hm
    unfold rgba_conv
    exact this
  · unfold layerAlpha rgba_conv
    have hsplit : '#' :: (format02x r ++ format02x g ++ format02x b ++ [ 'F', 'F' ]) =
        ('#' :: (format02x r ++ format02x g ++ format02x b)) ++ [ 'F', 'F' ] := by
      simp
    rw [hsplit, lastTwo_append _ _ (by rfl)]
    have hFF : parseHex [ 'F', 'F' ] = 255 := by decide
    rw [hFF]
    norm_num
  · have h100 : Int.toNat ⌊(1 : ℚ) * 100⌋ = 100 := by
      rw [show ⌊(1 : ℚ) * 100⌋ = 100 by norm_num]
      rfl
    have := layerAlpha_rgba_conv 0 0 0 (by norm_num) (by norm_num) (by norm_num)
      (Int.toNat ⌊(1 : ℚ) * 100⌋) (by rw [h100]; norm_num)
    unfold rgba_conv
    rw [this, h100]
    norm_num

/-- Claim C8 witness at `A = 1/2`: the decoded alpha is `50/255`. -/
theorem c8_alpha_encode_decode_mismatch_witness :
    layerAlpha (rgba_conv 31 119 180 (some (1 / 2))) =
      ((Int.toNat ⌊(1 / 2 : ℚ) * 100⌋ : ℕ) : ℚ) / 255
    ∧ layerAlpha (rgba_conv 31 119 180 none) = 1
    ∧ layerAlpha (rgba_conv 0 0 0 (some 1)) ≠ 1 :=
  c8_alpha_encode_decode_mismatch 31 119 180 (by norm_num) (by norm_num)
    (by norm_num) (1 / 2) (by norm_num) (by norm_num)

end Edraw
